import Mathlib

/-!
Verification of the SAFE Network node core: a shallow embedding of the node
runtime in sn_node/src/node.rs and of the EVM network profiles in
evmlib/src/lib.rs, together with theorems settling the specified properties of
the storage-challenge protocol, the network event dispatcher, the query
handler and the replication scheduler.

Types owned by the sn_protocol / sn_networking collaborator crates are not
part of the sources here; they are modelled from the specification, with the
modelling choice stated on each definition.
-/

namespace SafeNetwork

/-- Modelled from the spec: CLOSE_GROUP_SIZE, the number of nearest peers (by
XOR distance) forming the replication and challenge set; default 5. -/
def CLOSE_GROUP_SIZE : Nat := 5

/-- Modelled from the spec: opaque identifier of a network participant. -/
abbrev PeerId := Nat

/-- Modelled from the spec: 64-bit unsigned nonce drawn per challenge. -/
abbrev Nonce := Nat

/-- Modelled from the spec: the byte string stored in a record, taken
opaquely as the number its bytes denote. -/
abbrev Value := Nat

/-- Modelled from the spec: a network address, represented by the integer it
contributes to the XOR metric. On fixed-width address bytes, lexicographic
order of the bytes coincides with numeric order of this integer. -/
abbrev NetworkAddress := Nat

/-- Modelled from the spec: the XOR-distance metric on addresses, producing a
total order for closest queries. -/
def NetworkAddress.distance (self other : NetworkAddress) : Nat :=
  self ^^^ other

/-- Modelled from the spec: a peer id viewed as a network address. -/
def NetworkAddress.from_peer (p : PeerId) : NetworkAddress := p

/-- Modelled from the spec: the record key denoted by an address. -/
def NetworkAddress.to_record_key (self : NetworkAddress) : Nat := self

/-- Modelled from the spec: the record-type tag; only Chunk records take part
in storage challenges. -/
inductive RecordType
  | Chunk
  | Register
  | Scratchpad
deriving DecidableEq, Repr

/-- Modelled from the spec: ChunkProof.new(value, nonce) is a digest of a
collision-resistant hash over (nonce, value); the hash is idealised as the
injective pairing of its inputs, so proof equality coincides with equality of
the value under the same nonce, exactly the property the spec demands. -/
structure ChunkProof where
  value : Value
  nonce : Nonce
deriving DecidableEq, Repr

/-- Modelled from the spec: deterministic proof construction from a record
value and a challenge nonce. -/
def ChunkProof.new (value : Value) (nonce : Nonce) : ChunkProof :=
  { value := value, nonce := nonce }

/-- Modelled from the spec: the protocol-level errors node.rs places in query
responses (sn_protocol error variants used by the node core). -/
inductive ProtocolError
  | RecordExists (key : Nat)
  | GetStoreCostFailed
  | ChunkDoesNotExist (addr : NetworkAddress)
  | RegisterRecordNotFound (holder : NetworkAddress) (key : NetworkAddress)
  | ReplicatedRecordNotFound (holder : NetworkAddress) (key : NetworkAddress)
deriving DecidableEq, Repr

/-- Modelled from the spec: per-peer misbehaviour attributions accumulated by
the Network handle. -/
inductive NodeIssue
  | ReplicationFailure
  | FailedChunkProofCheck
deriving DecidableEq, Repr

/-- Modelled from the spec: node-level lifecycle events broadcast on the node
events channel. -/
inductive NodeEvent
  | ConnectedToNetwork
  | PeerAdded (max_peers_to_connect : Nat)
  | ChannelClosed
  | TerminateNode (reason : String)
deriving DecidableEq, Repr

/-- Modelled from the spec (Record Store interface): the local record store as
node.rs reads it. `addrs` is the address-to-record-type map returned by
get_all_local_record_addresses, kept as an association list whose addresses
are distinct, and `lookup` is get_local_record keyed by the record key of an
address. The two are distinct store operations, so an enumerated address may
fail to resolve to a record. -/
structure LocalStore where
  addrs : List (NetworkAddress × RecordType)
  lookup : Nat → Option Value

/-- The chunk-typed addresses among the enumerated local records; node.rs
applies this same filter in respond_x_closest_chunk_proof and in
storage_challenge. -/
def chunk_addresses (store : LocalStore) : List NetworkAddress :=
  store.addrs.filterMap (fun p => if p.2 = RecordType.Chunk then some p.1 else none)

/-- Modelled from the spec: the pricing metrics attached to a store-cost
lookup; their content is irrelevant to the claims and kept opaque. -/
abbrev QuotingMetrics := Unit

/-- Modelled from the spec: a signed store-cost quote; only the store cost is
carried, the remaining fields being irrelevant to the claims. -/
structure PaymentQuote where
  cost : Nat
deriving DecidableEq, Repr

/-- Modelled from the spec: the quote issuer invoked by handle_query for a
nonzero store cost (the quote construction itself lives outside node.rs). -/
def create_quote_for_storecost (cost : Nat) : Except ProtocolError PaymentQuote :=
  Except.ok { cost := cost }

/-- Decidable equality for Result values, used to compare query responses. -/
instance {ε α : Type} [DecidableEq ε] [DecidableEq α] : DecidableEq (Except ε α) := fun x y =>
  match x, y with
  | Except.ok a, Except.ok b =>
    if h : a = b then Decidable.isTrue (by rw [h]) else Decidable.isFalse (by simp [h])
  | Except.error a, Except.error b =>
    if h : a = b then Decidable.isTrue (by rw [h]) else Decidable.isFalse (by simp [h])
  | Except.ok _, Except.error _ => Decidable.isFalse (by simp)
  | Except.error _, Except.ok _ => Decidable.isFalse (by simp)

/-- Queries of the inbound wire protocol dispatched by handle_query. -/
inductive Query
  | GetStoreCost (address : NetworkAddress)
  | GetRegisterRecord (requester : NetworkAddress) (key : NetworkAddress)
  | GetReplicatedRecord (requester : NetworkAddress) (key : NetworkAddress)
  | GetChunkExistenceProof (key : NetworkAddress) (nonce : Nonce) (difficulty : Nat)
  | CheckNodeInProblem (target_address : NetworkAddress)
deriving DecidableEq, Repr

/-- Query responses produced by handle_query, mirroring the variants node.rs
constructs. -/
inductive QueryResponse
  | GetStoreCost (quote : Except ProtocolError PaymentQuote)
      (payment_address : Nat) (peer_address : NetworkAddress)
  | GetRegisterRecord (result : Except ProtocolError (NetworkAddress × Value))
  | GetReplicatedRecord (result : Except ProtocolError (NetworkAddress × Value))
  | GetChunkExistenceProof
      (answers : List (NetworkAddress × Except ProtocolError ChunkProof))
  | CheckNodeInProblem (reporter_address : NetworkAddress)
      (target_address : NetworkAddress) (is_in_trouble : Bool)
deriving DecidableEq, Repr

/-- Response envelope of the wire protocol. -/
inductive Response
  | Query (resp : QueryResponse)
  | Cmd
deriving DecidableEq, Repr

/-- The slice of the Network handle that node.rs consults: the node peer id,
the local record store, the local store-cost calculator, the shunned-peer
check and the local k-closest peers. Purely local reads are total; the
collaborator calls that return structured errors keep their Result type. -/
structure NetworkState where
  peer_id : PeerId
  store : LocalStore
  get_local_storecost : Nat → Except Unit (Nat × QuotingMetrics × List PeerId)
  is_peer_shunned : NetworkAddress → Except Unit Bool
  get_closest_k_value_local_peers : List PeerId

/-- Shallow embedding of Node.respond_x_closest_chunk_proof (node.rs 631-690),
the prover side of the storage challenge. For difficulty 1 it answers for the
challenged key alone; otherwise it enumerates the local chunk addresses, sorts
them ascending by distance to the key with a stable sort (the Rust sort of a
vector by key is stable), takes the first min(difficulty, CLOSE_GROUP_SIZE)
and answers with a recomputed proof for each address whose record it holds,
skipping addresses that do not resolve. -/
def respond_x_closest_chunk_proof (network : NetworkState) (key : NetworkAddress)
    (nonce : Nonce) (difficulty : Nat) :
    List (NetworkAddress × Except ProtocolError ChunkProof) :=
  if difficulty = 1 then
    match network.store.lookup (NetworkAddress.to_record_key key) with
    | some v => [(key, Except.ok (ChunkProof.new v nonce))]
    | none => [(key, Except.error (ProtocolError.ChunkDoesNotExist key))]
  else
    let all_chunk_addrs := chunk_addresses network.store
    let sorted := List.insertionSort
      (fun a b => NetworkAddress.distance key a ≤ NetworkAddress.distance key b)
      all_chunk_addrs
    let workload_factor := min difficulty CLOSE_GROUP_SIZE
    (sorted.take workload_factor).filterMap
      (fun addr => (network.store.lookup (NetworkAddress.to_record_key addr)).map
        (fun v => (addr, Except.ok (ChunkProof.new v nonce))))

/-- Shallow embedding of Node.handle_query (node.rs 516-629): pure dispatch on
the query variant against the local network state. -/
def handle_query (network : NetworkState) (query : Query)
    (payment_address : Nat) : Response :=
  let resp : QueryResponse :=
    match query with
    | Query.GetStoreCost address =>
      let record_key := NetworkAddress.to_record_key address
      let self_id := network.peer_id
      match network.get_local_storecost record_key with
      | Except.ok (cost, _quoting_metrics, _bad_nodes) =>
        if cost = 0 then
          QueryResponse.GetStoreCost
            (Except.error (ProtocolError.RecordExists record_key))
            payment_address (NetworkAddress.from_peer self_id)
        else
          QueryResponse.GetStoreCost (create_quote_for_storecost cost)
            payment_address (NetworkAddress.from_peer self_id)
      | Except.error _ =>
        QueryResponse.GetStoreCost
          (Except.error ProtocolError.GetStoreCostFailed)
          payment_address (NetworkAddress.from_peer self_id)
    | Query.GetRegisterRecord _requester key =>
      let our_address := NetworkAddress.from_peer network.peer_id
      match network.store.lookup (NetworkAddress.to_record_key key) with
      | some v => QueryResponse.GetRegisterRecord (Except.ok (our_address, v))
      | none => QueryResponse.GetRegisterRecord
          (Except.error (ProtocolError.RegisterRecordNotFound our_address key))
    | Query.GetReplicatedRecord _requester key =>
      let our_address := NetworkAddress.from_peer network.peer_id
      match network.store.lookup (NetworkAddress.to_record_key key) with
      | some v => QueryResponse.GetReplicatedRecord (Except.ok (our_address, v))
      | none => QueryResponse.GetReplicatedRecord
          (Except.error (ProtocolError.ReplicatedRecordNotFound our_address key))
    | Query.GetChunkExistenceProof key nonce difficulty =>
      QueryResponse.GetChunkExistenceProof
        (respond_x_closest_chunk_proof network key nonce difficulty)
    | Query.CheckNodeInProblem target_address =>
      let is_in_trouble :=
        match network.is_peer_shunned target_address with
        | Except.ok result => result
        | Except.error _ => false
      QueryResponse.CheckNodeInProblem (NetworkAddress.from_peer network.peer_id)
        target_address is_in_trouble
  Response.Query resp

/-- The per-answer check inside the loop of chunk_proof_verify_peer
(node.rs 780-798): an Ok proof for an address whose record the verifier holds
must equal the locally recomputed proof; Err proofs and locally missing
addresses are skipped. -/
def answer_ok (store : LocalStore) (nonce : Nonce)
    (ap : NetworkAddress × Except ProtocolError ChunkProof) : Bool :=
  match ap.2 with
  | Except.ok proof =>
    match store.lookup (NetworkAddress.to_record_key ap.1) with
    | some v => decide (proof = ChunkProof.new v nonce)
    | none => true
  | Except.error _ => true

/-- Shallow embedding of chunk_proof_verify_peer (node.rs 757-805). The input
is the entry for the challenged peer in the map returned by
send_and_get_responses: none when the peer did not answer, Except.error for a
transport failure; any shape other than an Ok GetChunkExistenceProof response
fails, as does an empty answer list or any failing per-answer check. -/
def chunk_proof_verify_peer (store : LocalStore) (nonce : Nonce)
    (response : Option (Except Unit Response)) : Bool :=
  match response with
  | some (Except.ok (Response.Query (QueryResponse.GetChunkExistenceProof answers))) =>
    if answers.isEmpty then false
    else answers.all (answer_ok store nonce)
  | _ => false

/-- The issue attribution wrapped around chunk_proof_verify_peer both in the
ChunkProofVerification event handler (node.rs 479-488) and in
storage_challenge (node.rs 746-750): a failed verification records
FailedChunkProofCheck against the challenged peer, a passing one records
nothing. -/
def chunk_proof_verification_issues (store : LocalStore) (nonce : Nonce)
    (peer : PeerId) (response : Option (Except Unit Response)) :
    List (PeerId × NodeIssue) :=
  if chunk_proof_verify_peer store nonce response then []
  else [(peer, NodeIssue.FailedChunkProofCheck)]

/-- Shallow embedding of Node.storage_challenge (node.rs 695-754), the
verifier side of the periodic storage challenge. rand_of gives the OsRng draw
used for each challenged peer (gen_range over 0..n modelled as the draw
mod n), nonce_of the challenge nonce drawn for that peer, and response_of the
answer of that peer to the issued GetChunkExistenceProof request. Returns the
outbound challenge requests (peer, challenged key) and the node issues
recorded. -/
def storage_challenge (network : NetworkState) (rand_of : PeerId → Nat)
    (nonce_of : PeerId → Nonce)
    (response_of : PeerId → Option (Except Unit Response)) :
    List (PeerId × NetworkAddress) × List (PeerId × NodeIssue) :=
  let closest_peers := network.get_closest_k_value_local_peers.take CLOSE_GROUP_SIZE
  if closest_peers.length < CLOSE_GROUP_SIZE then ([], [])
  else
    let verify_candidates := chunk_addresses network.store
    let num_of_targets := verify_candidates.length
    if num_of_targets < 50 then ([], [])
    else
      let challenged := closest_peers.filter (fun p => p ≠ network.peer_id)
      let requests := challenged.map
        (fun p => (p, verify_candidates.getD (rand_of p % num_of_targets) 0))
      let issues := challenged.filterMap
        (fun p =>
          if chunk_proof_verify_peer network.store (nonce_of p) (response_of p)
          then none
          else some (p, NodeIssue.FailedChunkProofCheck))
      (requests, issues)

/-- Network events delivered by the swarm driver (sn_networking NetworkEvent),
with payloads restricted to what the node core reads. -/
inductive NetworkEvent
  | PeerAdded (peer_id : PeerId) (connected_peers : Nat)
  | PeerRemoved (peer_id : PeerId) (connected_peers : Nat)
  | PeerWithUnsupportedProtocol
  | NewListenAddr
  | ResponseReceived (res : Response)
  | KeysToFetchForReplication (keys : List Nat)
  | QueryRequestReceived (query : Query)
  | UnverifiedRecord (key : Nat)
  | TerminateNode (reason : String)
  | FailedToFetchHolders (bad_nodes : List PeerId)
  | QuoteVerification
  | ChunkProofVerification (peer_id : PeerId) (key_to_verify : NetworkAddress)
deriving DecidableEq, Repr

/-- Shallow embedding of Node.handle_network_event (node.rs 346-496),
projected onto the state the event loop itself mutates: the peers_connected
counter and the lifecycle events broadcast while handling the event. On
PeerAdded the counter is incremented and ConnectedToNetwork is broadcast when
the incremented counter equals CLOSE_GROUP_SIZE; TerminateNode broadcasts the
reason; every other event leaves both untouched. The spawned background tasks
of the handler touch no loop state and are modelled separately
(chunk_proof_verification_issues, storage_challenge, handle_query). -/
def handle_network_event (peers_connected : Nat) (event : NetworkEvent) :
    Nat × List NodeEvent :=
  match event with
  | NetworkEvent.PeerAdded _ _ =>
    let pc := peers_connected + 1
    (pc, if pc = CLOSE_GROUP_SIZE then [NodeEvent.ConnectedToNetwork] else [])
  | NetworkEvent.TerminateNode reason =>
    (peers_connected, [NodeEvent.TerminateNode reason])
  | _ => (peers_connected, [])

/-- The event-channel arm of the run loop (node.rs 273-290) applied to a whole
sequence of received events: threads the peers_connected counter through
handle_network_event and concatenates the lifecycle broadcasts in order. -/
def process_events (peers_connected : Nat) :
    List NetworkEvent → Nat × List NodeEvent
  | [] => (peers_connected, [])
  | e :: rest =>
    let step := handle_network_event peers_connected e
    let result := process_events step.1 rest
    (result.1, step.2 ++ result.2)

/-- The number of PeerAdded events in a sequence. -/
def count_peer_added (events : List NetworkEvent) : Nat :=
  events.countP (fun e =>
    match e with
    | NetworkEvent.PeerAdded _ _ => true
    | _ => false)

/-- The outcome of one iteration of the network-event select arm of the run
loop. -/
structure LoopStep where
  peers_connected : Nat
  broadcast : List NodeEvent
  exits : Bool
deriving Repr

/-- One iteration of the network-event arm of the run loop (node.rs 273-290):
a received event is dispatched to handle_network_event and the loop continues;
a closed receiver (none) broadcasts ChannelClosed and exits the loop. -/
def run_loop_step (peers_connected : Nat) (received : Option NetworkEvent) :
    LoopStep :=
  match received with
  | some event =>
    let step := handle_network_event peers_connected event
    { peers_connected := step.1, broadcast := step.2, exits := false }
  | none =>
    { peers_connected := peers_connected,
      broadcast := [NodeEvent.ChannelClosed], exits := true }

/-- Maximum periodic replication interval in seconds (node.rs 47). -/
def PERIODIC_REPLICATION_INTERVAL_MAX_S : Nat := 180

/-- The rand crate function Rng.gen_range applied to the half-open range
lo..hi: it maps the generator draw uniformly onto the integers of [lo, hi),
modelled as lo plus the draw reduced mod (hi - lo). -/
def gen_range (lo hi draw : Nat) : Nat := lo + draw % (hi - lo)

/-- The periodic replication interval in seconds, sampled once at node start
(node.rs 242-244) from gen_range over
PERIODIC_REPLICATION_INTERVAL_MAX_S / 2 .. PERIODIC_REPLICATION_INTERVAL_MAX_S. -/
def replication_interval (draw : Nat) : Nat :=
  gen_range (PERIODIC_REPLICATION_INTERVAL_MAX_S / 2)
    PERIODIC_REPLICATION_INTERVAL_MAX_S draw

/-- The comparison the specification words use for the prover response:
ascending by distance to the key, ties broken by lexicographic order of the
address bytes. -/
def spec_closer (key a b : NetworkAddress) : Prop :=
  NetworkAddress.distance key a < NetworkAddress.distance key b ∨
    (NetworkAddress.distance key a = NetworkAddress.distance key b ∧ a ≤ b)

instance (key : NetworkAddress) : DecidableRel (spec_closer key) := fun a b => by
  unfold spec_closer
  infer_instance

/-- The prover response as the specification words describe it (claim C1): the
first min(difficulty, CLOSE_GROUP_SIZE) elements of the local chunk addresses
sorted ascending by distance to the key with ties broken by lexicographic
order of the address bytes, kept in that order, each address resolving to a
locally held record paired with the recomputed proof and the unresolved
addresses omitted. -/
def spec_prover_response (store : LocalStore) (key : NetworkAddress)
    (nonce : Nonce) (difficulty : Nat) :
    List (NetworkAddress × Except ProtocolError ChunkProof) :=
  let sorted := List.insertionSort (spec_closer key) (chunk_addresses store)
  (sorted.take (min difficulty CLOSE_GROUP_SIZE)).filterMap
    (fun addr => (store.lookup (NetworkAddress.to_record_key addr)).map
      (fun v => (addr, Except.ok (ChunkProof.new v nonce))))

namespace evmlib

/-- EVM account address, represented by its 160-bit numeric value. -/
abbrev Address := Nat

/-- Shallow embedding of evmlib/src/lib.rs 28-32. -/
def PUBLIC_ARBITRUM_ONE_HTTP_RPC_URL : String := "https://arb1.arbitrum.io/rpc"

/-- Shallow embedding of evmlib/src/lib.rs 34-35. -/
def ARBITRUM_ONE_PAYMENT_TOKEN_ADDRESS : Address :=
  0x4bc1aCE0E66170375462cB4E6Af42Ad4D5EC689C

/-- Shallow embedding of evmlib/src/lib.rs 38-39. -/
def ARBITRUM_ONE_DATA_PAYMENTS_ADDRESS : Address :=
  0x887930F30EDEb1B255Cd2273C3F4400919df2EFe

/-- Shallow embedding of CustomNetwork (evmlib/src/lib.rs 41-46). -/
structure CustomNetwork where
  rpc_url_http : String
  payment_token_address : Address
  data_payments_address : Address
deriving DecidableEq, Repr

/-- Shallow embedding of the Network profile enum (evmlib/src/lib.rs 60-64). -/
inductive Network
  | ArbitrumOne
  | Custom (custom : CustomNetwork)
deriving DecidableEq, Repr

/-- Shallow embedding of Network::rpc_url (evmlib/src/lib.rs 82-87). -/
def Network.rpc_url : Network → String
  | Network.ArbitrumOne => PUBLIC_ARBITRUM_ONE_HTTP_RPC_URL
  | Network.Custom custom => custom.rpc_url_http

/-- Shallow embedding of Network::payment_token_address
(evmlib/src/lib.rs 89-94). -/
def Network.payment_token_address : Network → Address
  | Network.ArbitrumOne => ARBITRUM_ONE_PAYMENT_TOKEN_ADDRESS
  | Network.Custom custom => custom.payment_token_address

/-- Shallow embedding of Network::data_payments_address
(evmlib/src/lib.rs 96-101). -/
def Network.data_payments_address : Network → Address
  | Network.ArbitrumOne => ARBITRUM_ONE_DATA_PAYMENTS_ADDRESS
  | Network.Custom custom => custom.data_payments_address

end evmlib

/-- A store holding chunk records at addresses 9, 1 and 5 (the record of 9
being enumerated but not resolvable) and a register record at 2. -/
def c1_store : LocalStore :=
  { addrs := [(9, RecordType.Chunk), (2, RecordType.Register),
      (1, RecordType.Chunk), (5, RecordType.Chunk)],
    lookup := fun a => if a = 1 then some 11 else if a = 5 then some 55 else none }

/-- A network state around c1_store. -/
def c1_network : NetworkState :=
  { peer_id := 77, store := c1_store,
    get_local_storecost := fun _ => Except.error (),
    is_peer_shunned := fun _ => Except.ok false,
    get_closest_k_value_local_peers := [] }

/-- A store holding no records at all; every lookup misses. -/
def c9_store : LocalStore := { addrs := [], lookup := fun _ => none }

/-- Answer list used by the C9 witness: one Err answer and one Ok answer for
an address the verifier does not hold. -/
def c9_answers : List (NetworkAddress × Except ProtocolError ChunkProof) :=
  [(1, Except.error ProtocolError.GetStoreCostFailed),
    (2, Except.ok (ChunkProof.new 9 9))]

/-- A store holding forty-nine chunk records. -/
def c4_store : LocalStore :=
  { addrs := (List.range 49).map (fun i => (i, RecordType.Chunk)),
    lookup := fun _ => none }

/-- Scenario S1 fixture: ten neighbours and forty-nine locally held chunk
records. -/
def c4_network : NetworkState :=
  { peer_id := 0,
    store := c4_store,
    get_local_storecost := fun _ => Except.error (),
    is_peer_shunned := fun _ => Except.ok false,
    get_closest_k_value_local_peers := [1, 2, 3, 4, 5, 6, 7, 8, 9, 10] }

/-- A network state whose store-cost lookup reports cost zero. -/
def c5_network_zero : NetworkState :=
  { peer_id := 7, store := { addrs := [], lookup := fun _ => none },
    get_local_storecost := fun _ => Except.ok (0, (), []),
    is_peer_shunned := fun _ => Except.ok false,
    get_closest_k_value_local_peers := [] }

/-- A network state whose store-cost lookup fails. -/
def c5_network_fail : NetworkState :=
  { peer_id := 7, store := { addrs := [], lookup := fun _ => none },
    get_local_storecost := fun _ => Except.error (),
    is_peer_shunned := fun _ => Except.ok false,
    get_closest_k_value_local_peers := [] }

/-- XOR distance from a fixed key determines the address. -/
theorem distance_inj (key : NetworkAddress) {a b : NetworkAddress}
    (h : NetworkAddress.distance key a = NetworkAddress.distance key b) : a = b := by
  have h2 := congrArg (fun x => key ^^^ x) h
  simpa [NetworkAddress.distance, Nat.xor_cancel_left] using h2

/-- On a duplicate-free list, sorting by distance-to-key alone and sorting by
distance with the lexicographic tie-break agree: XOR distance from a fixed key
is injective, so ties between distinct addresses cannot occur and both sorts
are the unique strictly-by-distance ordering. -/
theorem insertionSort_distance_eq (key : NetworkAddress) (l : List NetworkAddress)
    (hnd : l.Nodup) :
    List.insertionSort
        (fun a b => NetworkAddress.distance key a ≤ NetworkAddress.distance key b) l =
      List.insertionSort (spec_closer key) l := by
  set r1 : NetworkAddress → NetworkAddress → Prop :=
    fun a b => NetworkAddress.distance key a ≤ NetworkAddress.distance key b with hr1
  haveI : IsTotal NetworkAddress r1 := ⟨fun a b => Nat.le_total _ _⟩
  haveI : IsTrans NetworkAddress r1 := ⟨fun _ _ _ hab hbc => Nat.le_trans hab hbc⟩
  haveI : IsTotal NetworkAddress (spec_closer key) := ⟨fun a b => by
    unfold spec_closer
    rcases Nat.lt_trichotomy (NetworkAddress.distance key a)
        (NetworkAddress.distance key b) with h | h | h
    · exact Or.inl (Or.inl h)
    · rcases Nat.le_total a b with hab | hab
      · exact Or.inl (Or.inr ⟨h, hab⟩)
      · exact Or.inr (Or.inr ⟨h.symm, hab⟩)
    · exact Or.inr (Or.inl h)⟩
  haveI : IsTrans NetworkAddress (spec_closer key) := ⟨fun a b c hab hbc => by
    unfold spec_closer at hab hbc ⊢
    rcases hab with h1 | ⟨h1, h1le⟩ <;> rcases hbc with h2 | ⟨h2, h2le⟩
    · exact Or.inl (Nat.lt_trans h1 h2)
    · exact Or.inl (Nat.lt_of_lt_of_le h1 (Nat.le_of_eq h2))
    · exact Or.inl (Nat.lt_of_le_of_lt (Nat.le_of_eq h1) h2)
    · exact Or.inr ⟨h1.trans h2, Nat.le_trans h1le h2le⟩⟩
  have h1s := List.sorted_insertionSort r1 l
  have h2s := List.sorted_insertionSort (spec_closer key) l
  have h1p := List.perm_insertionSort r1 l
  have h2p := List.perm_insertionSort (spec_closer key) l
  have h1n : (List.insertionSort r1 l).Nodup := h1p.symm.nodup hnd
  have h2n : (List.insertionSort (spec_closer key) l).Nodup := h2p.symm.nodup hnd
  have h1strict : List.Sorted
      (fun a b => NetworkAddress.distance key a < NetworkAddress.distance key b)
      (List.insertionSort r1 l) := by
    refine (List.Pairwise.and h1s h1n).imp ?_
    intro a b hab
    exact Nat.lt_of_le_of_ne hab.1 (fun hd => hab.2 (distance_inj key hd))
  have h2strict : List.Sorted
      (fun a b => NetworkAddress.distance key a < NetworkAddress.distance key b)
      (List.insertionSort (spec_closer key) l) := by
    refine (List.Pairwise.and h2s h2n).imp ?_
    intro a b hab
    rcases hab.1 with hlt | ⟨heq, _⟩
    · exact hlt
    · exact absurd (distance_inj key heq) hab.2
  haveI : IsAntisymm NetworkAddress
      (fun a b => NetworkAddress.distance key a < NetworkAddress.distance key b) :=
    ⟨fun _ _ h1 h2 => absurd (Nat.lt_trans h1 h2) (Nat.lt_irrefl _)⟩
  exact List.eq_of_perm_of_sorted (h1p.trans h2p.symm) h1strict h2strict

/-- Distinct stored addresses stay distinct after restriction to chunks. -/
theorem chunk_addresses_nodup (store : LocalStore)
    (hnd : (store.addrs.map Prod.fst).Nodup) : (chunk_addresses store).Nodup := by
  have hpairs : store.addrs.Nodup := List.Nodup.of_map Prod.fst hnd
  refine hpairs.filterMap ?_
  intro a a' b hb hb'
  rcases a with ⟨x, t⟩
  rcases a' with ⟨x', t'⟩
  by_cases ht : t = RecordType.Chunk <;> by_cases ht' : t' = RecordType.Chunk <;>
    simp [ht, ht', Option.mem_def] at hb hb' <;> subst_vars <;> rfl

/-- C1: for every difficulty above one, the prover answers a
GetChunkExistenceProof query with exactly the first
min(difficulty, CLOSE_GROUP_SIZE) locally held chunk addresses sorted
ascending by distance to the key (ties broken by lexicographic order of the
address bytes), kept in that distance order, pairing each address that
resolves to a locally held record with the recomputed proof for the nonce and
omitting addresses with no local record. -/
theorem prover_response_closest_sorted_prefix (network : NetworkState)
    (key : NetworkAddress) (nonce : Nonce) (difficulty : Nat)
    (payment_address : Nat) (hd : 1 < difficulty)
    (hnd : (network.store.addrs.map Prod.fst).Nodup) :
    handle_query network (Query.GetChunkExistenceProof key nonce difficulty)
        payment_address =
      Response.Query (QueryResponse.GetChunkExistenceProof
        (spec_prover_response network.store key nonce difficulty)) := by
  have hnd2 := chunk_addresses_nodup network.store hnd
  have hsort := insertionSort_distance_eq key (chunk_addresses network.store) hnd2
  simp only [handle_query, respond_x_closest_chunk_proof, spec_prover_response]
  rw [if_neg (by omega)]
  rw [hsort]

/-- Witness for C1 at a concrete store: distances to key 3 order the chunk
addresses as 1, 5, 9, the record of 9 is missing and is omitted, the register
record at 2 takes no part. -/
theorem prover_response_closest_sorted_prefix_witness :
    (1 : Nat) < 3 ∧ (c1_network.store.addrs.map Prod.fst).Nodup ∧
      handle_query c1_network (Query.GetChunkExistenceProof 3 7 3) 0 =
        Response.Query (QueryResponse.GetChunkExistenceProof
          (spec_prover_response c1_network.store 3 7 3)) :=
  ⟨by decide, by decide,
    prover_response_closest_sorted_prefix c1_network 3 7 3 0 (by decide) (by decide)⟩

/-- Only PeerAdded changes the peers_connected counter, by exactly one. -/
theorem handle_network_event_fst (pc : Nat) (e : NetworkEvent) :
    (handle_network_event pc e).1 =
      (match e with
        | NetworkEvent.PeerAdded _ _ => pc + 1
        | _ => pc) := by
  cases e <;> rfl

/-- After any event sequence the counter has grown by exactly the number of
PeerAdded events handled. -/
theorem process_events_fst (pc : Nat) (events : List NetworkEvent) :
    (process_events pc events).1 = pc + count_peer_added events := by
  induction events generalizing pc with
  | nil => simp [process_events, count_peer_added]
  | cons e rest ih =>
    cases e <;>
      simp [process_events, handle_network_event, count_peer_added,
        List.countP_cons, ih] <;>
      omega

/-- Counting ConnectedToNetwork broadcasts across a run starting at any
counter value: one is emitted exactly when the run crosses CLOSE_GROUP_SIZE. -/
theorem count_ctn_process_events (events : List NetworkEvent) (pc : Nat) :
    (process_events pc events).2.count NodeEvent.ConnectedToNetwork =
      (if pc < CLOSE_GROUP_SIZE ∧ CLOSE_GROUP_SIZE ≤ pc + count_peer_added events
        then 1 else 0) := by
  induction events generalizing pc with
  | nil =>
    simp only [process_events, count_peer_added, List.countP_nil, List.count_nil]
    split_ifs with h
    · omega
    · rfl
  | cons e rest ih =>
    cases e
    all_goals
      simp [process_events, handle_network_event, count_peer_added,
        List.countP_cons, List.count_append, List.count_cons, ih,
        apply_ite (List.count NodeEvent.ConnectedToNetwork)]
    all_goals split_ifs
    all_goals simp_all [CLOSE_GROUP_SIZE]
    all_goals omega

/-- C2: ConnectedToNetwork is broadcast exactly once per run, namely while
handling the PeerAdded event whose handling makes the peers_connected counter
first reach CLOSE_GROUP_SIZE; no earlier or later event, PeerAdded included,
broadcasts it again. -/
theorem connected_to_network_exactly_once :
    (∀ events : List NetworkEvent,
      (process_events 0 events).2.count NodeEvent.ConnectedToNetwork =
        (if CLOSE_GROUP_SIZE ≤ count_peer_added events then 1 else 0)) ∧
    (∀ (pre : List NetworkEvent) (e : NetworkEvent),
      NodeEvent.ConnectedToNetwork ∈
          (handle_network_event (process_events 0 pre).1 e).2 ↔
        ((∃ pid cp, e = NetworkEvent.PeerAdded pid cp) ∧
          count_peer_added pre + 1 = CLOSE_GROUP_SIZE)) := by
  constructor
  · intro events
    rw [count_ctn_process_events]
    have h0 : (0 : Nat) < CLOSE_GROUP_SIZE := by decide
    split_ifs <;> omega
  · intro pre e
    rw [process_events_fst]
    cases e <;>
      simp only [handle_network_event, List.mem_singleton, List.not_mem_nil] <;>
      simp <;>
      split_ifs <;>
      simp_all <;>
      omega

/-- C10: handling any event other than PeerAdded leaves the peers_connected
counter unchanged, PeerAdded increments it by exactly one, so after any event
sequence the counter equals the number of PeerAdded events handled and never
decreases. -/
theorem peers_connected_counts_peer_added :
    (∀ (pc : Nat) (e : NetworkEvent),
      (handle_network_event pc e).1 =
        (match e with
          | NetworkEvent.PeerAdded _ _ => pc + 1
          | _ => pc)) ∧
    (∀ (pc : Nat) (events : List NetworkEvent),
      (process_events pc events).1 = pc + count_peer_added events) ∧
    (∀ (pc : Nat) (events : List NetworkEvent),
      pc ≤ (process_events pc events).1) := by
  refine ⟨handle_network_event_fst, process_events_fst, ?_⟩
  intro pc events
  rw [process_events_fst]
  omega

/-- C7: a TerminateNode event broadcasts TerminateNode(reason) and the loop
continues; a closed receiver broadcasts ChannelClosed and exits the loop; no
received event exits the loop. -/
theorem run_loop_exit_behaviour :
    (∀ (pc : Nat) (reason : String),
      run_loop_step pc (some (NetworkEvent.TerminateNode reason)) =
        { peers_connected := pc, broadcast := [NodeEvent.TerminateNode reason],
          exits := false }) ∧
    (∀ pc : Nat,
      run_loop_step pc none =
        { peers_connected := pc, broadcast := [NodeEvent.ChannelClosed],
          exits := true }) ∧
    (∀ (pc : Nat) (e : NetworkEvent), (run_loop_step pc (some e)).exits = false) := by
  refine ⟨fun pc reason => rfl, fun pc => rfl, fun pc e => ?_⟩
  cases e <;> rfl

/-- The per-answer check fails exactly on an Ok proof for a locally held
record that differs from the recomputed proof. -/
theorem answer_ok_eq_false_iff (store : LocalStore) (nonce : Nonce)
    (ap : NetworkAddress × Except ProtocolError ChunkProof) :
    answer_ok store nonce ap = false ↔
      ∃ proof v, ap.2 = Except.ok proof ∧
        store.lookup (NetworkAddress.to_record_key ap.1) = some v ∧
        proof ≠ ChunkProof.new v nonce := by
  rcases ap with ⟨addr, proof⟩
  cases proof with
  | error e => simp [answer_ok]
  | ok p =>
    simp only [answer_ok]
    cases hl : store.lookup (NetworkAddress.to_record_key addr) with
    | none => simp [hl]
    | some v => simp [hl]

/-- C3: FailedChunkProofCheck is recorded against the challenged peer exactly
when the response is missing, transport-errored or not an Ok
GetChunkExistenceProof response, or the answer list is empty, or some answer
whose address resolves to a locally held record carries an Ok proof different
from the locally recomputed one; answers for addresses the verifier does not
hold locally are neither pass nor fail and cause no issue attribution. -/
theorem failed_chunk_proof_check_iff (store : LocalStore) (nonce : Nonce)
    (peer : PeerId) (response : Option (Except Unit Response)) :
    (peer, NodeIssue.FailedChunkProofCheck) ∈
        chunk_proof_verification_issues store nonce peer response ↔
      (match response with
        | some (Except.ok (Response.Query
            (QueryResponse.GetChunkExistenceProof answers))) =>
          answers = [] ∨ ∃ addr proof v,
            (addr, Except.ok proof) ∈ answers ∧
            store.lookup (NetworkAddress.to_record_key addr) = some v ∧
            proof ≠ ChunkProof.new v nonce
        | _ => True) := by
  have hmem : (peer, NodeIssue.FailedChunkProofCheck) ∈
        chunk_proof_verification_issues store nonce peer response ↔
      chunk_proof_verify_peer store nonce response = false := by
    unfold chunk_proof_verification_issues
    split_ifs with hv <;> simp [hv]
  rw [hmem]
  match response with
  | none => simp [chunk_proof_verify_peer]
  | some (Except.error e) => simp [chunk_proof_verify_peer]
  | some (Except.ok Response.Cmd) => simp [chunk_proof_verify_peer]
  | some (Except.ok (Response.Query (QueryResponse.GetStoreCost q pa ad))) =>
    simp [chunk_proof_verify_peer]
  | some (Except.ok (Response.Query (QueryResponse.GetRegisterRecord r))) =>
    simp [chunk_proof_verify_peer]
  | some (Except.ok (Response.Query (QueryResponse.GetReplicatedRecord r))) =>
    simp [chunk_proof_verify_peer]
  | some (Except.ok (Response.Query (QueryResponse.CheckNodeInProblem a b c))) =>
    simp [chunk_proof_verify_peer]
  | some (Except.ok (Response.Query (QueryResponse.GetChunkExistenceProof answers))) =>
    simp only [chunk_proof_verify_peer]
    by_cases hemp : answers.isEmpty = true
    · simp [List.isEmpty_iff.mp hemp]
    · have hne : ¬(answers = []) := by
        simpa [List.isEmpty_iff] using hemp
      rw [if_neg hemp, or_iff_right hne, List.all_eq_false]
      constructor
      · rintro ⟨⟨addr, p⟩, hmemans, hfail⟩
        rw [Bool.not_eq_true] at hfail
        rcases (answer_ok_eq_false_iff store nonce (addr, p)).mp hfail with
          ⟨proof, v, hp, hl, hnep⟩
        exact ⟨addr, proof, v, by rw [← hp]; exact hmemans, hl, hnep⟩
      · rintro ⟨addr, proof, v, hmemans, hl, hnep⟩
        refine ⟨(addr, Except.ok proof), hmemans, ?_⟩
        rw [Bool.not_eq_true]
        exact (answer_ok_eq_false_iff store nonce (addr, Except.ok proof)).mpr
          ⟨proof, v, rfl, hl, hnep⟩

/-- C9: a non-empty answer list in which no answer is checkable — every answer
carries an Err proof or names an address the verifier does not hold locally —
passes the verification and attributes no FailedChunkProofCheck. -/
theorem unverifiable_answers_pass (store : LocalStore) (nonce : Nonce)
    (peer : PeerId)
    (answers : List (NetworkAddress × Except ProtocolError ChunkProof))
    (hne : answers ≠ [])
    (hunv : ∀ ap ∈ answers, (∃ e, ap.2 = Except.error e) ∨
      store.lookup (NetworkAddress.to_record_key ap.1) = none) :
    chunk_proof_verify_peer store nonce (some (Except.ok (Response.Query
        (QueryResponse.GetChunkExistenceProof answers)))) = true ∧
      chunk_proof_verification_issues store nonce peer (some (Except.ok
        (Response.Query (QueryResponse.GetChunkExistenceProof answers)))) = [] := by
  have hverify : chunk_proof_verify_peer store nonce (some (Except.ok
      (Response.Query (QueryResponse.GetChunkExistenceProof answers)))) = true := by
    simp only [chunk_proof_verify_peer]
    rw [if_neg (by simpa [List.isEmpty_iff] using hne)]
    rw [List.all_eq_true]
    intro ap hap
    rcases hunv ap hap with ⟨e, he⟩ | hnone
    · rcases ap with ⟨addr, p⟩
      simp only at he
      simp [answer_ok, he]
    · rcases ap with ⟨addr, p⟩
      simp only at hnone
      cases p with
      | error e => simp [answer_ok]
      | ok proof => simp [answer_ok, hnone]
  exact ⟨hverify, by simp [chunk_proof_verification_issues, hverify]⟩

/-- Witness for C9 at a concrete response: both answers are unverifiable, the
peer passes and no issue is recorded. -/
theorem unverifiable_answers_pass_witness :
    c9_answers ≠ [] ∧
      chunk_proof_verify_peer c9_store 5 (some (Except.ok (Response.Query
        (QueryResponse.GetChunkExistenceProof c9_answers)))) = true ∧
      chunk_proof_verification_issues c9_store 5 3 (some (Except.ok
        (Response.Query (QueryResponse.GetChunkExistenceProof c9_answers)))) = [] :=
  ⟨by decide,
    (unverifiable_answers_pass c9_store 5 3 c9_answers (by decide)
      (fun ap _ => Or.inr rfl)).1,
    (unverifiable_answers_pass c9_store 5 3 c9_answers (by decide)
      (fun ap _ => Or.inr rfl)).2⟩

/-- C4: when the local k-closest peer list has fewer than CLOSE_GROUP_SIZE
entries, or fewer than 50 chunk-typed addresses are held locally, the periodic
storage challenge performs no outbound challenge request and attributes no
node issue. -/
theorem storage_challenge_skips (network : NetworkState) (rand_of : PeerId → Nat)
    (nonce_of : PeerId → Nonce)
    (response_of : PeerId → Option (Except Unit Response))
    (h : network.get_closest_k_value_local_peers.length < CLOSE_GROUP_SIZE ∨
      (chunk_addresses network.store).length < 50) :
    storage_challenge network rand_of nonce_of response_of = ([], []) := by
  simp only [storage_challenge]
  split_ifs with h1 h2
  · rfl
  · rfl
  · exfalso
    rcases h with h | h
    · rw [List.length_take] at h1
      omega
    · exact h2 h

/-- Witness for C4 on scenario S1: 49 chunk records and 10 neighbours yield no
outbound challenge request and no issue. -/
theorem storage_challenge_skips_witness :
    (c4_network.get_closest_k_value_local_peers.length < CLOSE_GROUP_SIZE ∨
      (chunk_addresses c4_network.store).length < 50) ∧
      storage_challenge c4_network (fun _ => 0) (fun _ => 0) (fun _ => none) =
        ([], []) :=
  ⟨Or.inr (by decide),
    storage_challenge_skips c4_network (fun _ => 0) (fun _ => 0) (fun _ => none)
      (Or.inr (by decide))⟩

/-- C5: a GetStoreCost query whose local store-cost lookup succeeds with cost
zero is answered with Err(RecordExists(key)), one whose lookup fails with
Err(GetStoreCostFailed); both responses carry the payment address and the
node peer address. -/
theorem get_store_cost_error_cases (network : NetworkState)
    (address : NetworkAddress) (payment_address : Nat) :
    (∀ qm bad,
      network.get_local_storecost (NetworkAddress.to_record_key address) =
          Except.ok (0, qm, bad) →
      handle_query network (Query.GetStoreCost address) payment_address =
        Response.Query (QueryResponse.GetStoreCost
          (Except.error (ProtocolError.RecordExists
            (NetworkAddress.to_record_key address)))
          payment_address (NetworkAddress.from_peer network.peer_id))) ∧
    (∀ err,
      network.get_local_storecost (NetworkAddress.to_record_key address) =
          Except.error err →
      handle_query network (Query.GetStoreCost address) payment_address =
        Response.Query (QueryResponse.GetStoreCost
          (Except.error ProtocolError.GetStoreCostFailed)
          payment_address (NetworkAddress.from_peer network.peer_id))) := by
  constructor
  · intro qm bad hcost
    simp [handle_query, hcost]
  · intro err hcost
    simp [handle_query, hcost]

/-- Witness for C5 at concrete lookups: both error branches produce the stated
responses. -/
theorem get_store_cost_error_cases_witness :
    c5_network_zero.get_local_storecost (NetworkAddress.to_record_key 4) =
        Except.ok (0, (), []) ∧
      handle_query c5_network_zero (Query.GetStoreCost 4) 12 =
        Response.Query (QueryResponse.GetStoreCost
          (Except.error (ProtocolError.RecordExists
            (NetworkAddress.to_record_key 4)))
          12 (NetworkAddress.from_peer c5_network_zero.peer_id)) ∧
      c5_network_fail.get_local_storecost (NetworkAddress.to_record_key 4) =
        Except.error () ∧
      handle_query c5_network_fail (Query.GetStoreCost 4) 12 =
        Response.Query (QueryResponse.GetStoreCost
          (Except.error ProtocolError.GetStoreCostFailed)
          12 (NetworkAddress.from_peer c5_network_fail.peer_id)) :=
  ⟨rfl, (get_store_cost_error_cases c5_network_zero 4 12).1 () [] rfl, rfl,
    (get_store_cost_error_cases c5_network_fail 4 12).2 () rfl⟩

/-- C6 counterexample: the claim says the sample is uniform over the closed
interval up to PERIODIC_REPLICATION_INTERVAL_MAX_S, but the upper endpoint 180
is produced by no generator draw — gen_range over 90..180 excludes 180. -/
theorem replication_interval_never_max :
    ¬ ∃ draw : Nat,
      replication_interval draw = PERIODIC_REPLICATION_INTERVAL_MAX_S := by
  rintro ⟨draw, h⟩
  simp [replication_interval, gen_range, PERIODIC_REPLICATION_INTERVAL_MAX_S] at h
  omega

/-- C6 (amended): the replication interval sampled at node start is uniform
over the half-open interval [R/2, R): every draw lands in [90, 180), and every
value of [90, 180) is reached by some draw. -/
theorem replication_interval_range :
    (∀ draw : Nat,
      PERIODIC_REPLICATION_INTERVAL_MAX_S / 2 ≤ replication_interval draw ∧
        replication_interval draw < PERIODIC_REPLICATION_INTERVAL_MAX_S) ∧
    (∀ v : Nat,
      PERIODIC_REPLICATION_INTERVAL_MAX_S / 2 ≤ v →
      v < PERIODIC_REPLICATION_INTERVAL_MAX_S →
      ∃ draw : Nat, replication_interval draw = v) := by
  constructor
  · intro draw
    simp only [replication_interval, gen_range, PERIODIC_REPLICATION_INTERVAL_MAX_S]
    omega
  · intro v hlo hhi
    refine ⟨v - PERIODIC_REPLICATION_INTERVAL_MAX_S / 2, ?_⟩
    simp only [replication_interval, gen_range,
      PERIODIC_REPLICATION_INTERVAL_MAX_S] at hlo hhi ⊢
    omega

/-- Witness for the amended C6: draw 0 lands in the interval and value 179 is
attained. -/
theorem replication_interval_range_witness :
    (PERIODIC_REPLICATION_INTERVAL_MAX_S / 2 ≤ replication_interval 0 ∧
      replication_interval 0 < PERIODIC_REPLICATION_INTERVAL_MAX_S) ∧
    ∃ draw : Nat, replication_interval draw = 179 :=
  ⟨replication_interval_range.1 0,
    replication_interval_range.2 179 (by decide) (by decide)⟩

/-- C8: the ArbitrumOne profile returns the fixed RPC URL, payment-token
address and data-payments address; a Custom profile returns the
caller-supplied values. -/
theorem network_profile_accessors :
    evmlib.Network.rpc_url evmlib.Network.ArbitrumOne =
        "https://arb1.arbitrum.io/rpc" ∧
    evmlib.Network.payment_token_address evmlib.Network.ArbitrumOne =
        0x4bc1aCE0E66170375462cB4E6Af42Ad4D5EC689C ∧
    evmlib.Network.data_payments_address evmlib.Network.ArbitrumOne =
        0x887930F30EDEb1B255Cd2273C3F4400919df2EFe ∧
    ∀ custom : evmlib.CustomNetwork,
      evmlib.Network.rpc_url (evmlib.Network.Custom custom) =
          custom.rpc_url_http ∧
      evmlib.Network.payment_token_address (evmlib.Network.Custom custom) =
          custom.payment_token_address ∧
      evmlib.Network.data_payments_address (evmlib.Network.Custom custom) =
          custom.data_payments_address :=
  ⟨rfl, rfl, rfl, fun _ => ⟨rfl, rfl, rfl⟩⟩

end SafeNetwork
